import Mathlib

/-!
Verification development for the mono-earthquake ingestion-and-fan-out
pipeline. The Python sources (`parser.py`, `database.py`, `main.py`,
`polls.py`, `webhooks.py`) are shallowly embedded: pure functions become
Lean functions, SQLite tables become lists of structures threaded through
the operations, Python floats are modelled as exact rationals (every value
the feed produces is a short decimal literal), and raised exceptions become
`Except` / `Option` results. A `PyErr` value distinguishes ordinary
`Exception`-class raises from `SystemExit` (raised by `sys.exit`), because
the code's `except Exception` handlers catch only the former.
-/

namespace MonoEq

/-- Python `\s` on the data handled here (`str.isspace` characters of the
ASCII range used by the feed). -/
def isPySpace (c : Char) : Bool :=
  c = ' ' || c = '\t' || c = '\n' || c = '\r' || c = '\x0b' || c = '\x0c'

/-- Python `\d`. -/
def isDigitCh (c : Char) : Bool := '0' ≤ c && c ≤ '9'

/-- Python `\S`. -/
def isNonSpace (c : Char) : Bool := !(isPySpace c)

/-- Python `.` without `re.DOTALL`: any character except a newline. -/
def anyNoNl (c : Char) : Bool := c ≠ '\n'

/-- Python `.` under `re.DOTALL`: any character. -/
def anyCh (_ : Char) : Bool := true

/-- Abstract syntax of the fragment of Python regular expressions used by
`parser.py`. `rep p lo lz` is `p{lo,}` over a one-character class, greedy
when `lz = false` and lazy (`{lo,}?`) when `lz = true`; `exactly n p` is
`p{n}`; `grp` is a capturing group; `eol` is `$` (no `re.MULTILINE`);
`eos` is `\Z`. -/
inductive RE where
  | eps
  | lit (s : String)
  | cls (p : Char → Bool)
  | exactly (n : Nat) (p : Char → Bool)
  | rep (p : Char → Bool) (lo : Nat) (lz : Bool)
  | seq (a b : RE)
  | alt (a b : RE)
  | grp (a : RE)
  | eol
  | eos

/-- Consume an exact literal, returning the rest of the input. -/
def litTake : List Char → List Char → Option (List Char)
  | [], cs => some cs
  | _ :: _, [] => none
  | l :: ls, c :: cs => if c = l then litTake ls cs else none

/-- Consume exactly `n` characters of class `p`. -/
def ccTake (p : Char → Bool) : Nat → List Char → Option (List Char)
  | 0, cs => some cs
  | _ + 1, [] => none
  | n + 1, c :: cs => if p c then ccTake p n cs else none

/-- Greedy `p*` in continuation-passing style: longest match first, then
backtrack, exactly as the Python engine does. -/
def greedyMany (p : Char → Bool) (cs : List Char)
    (k : List Char → Option (List String)) : Option (List String) :=
  match cs with
  | [] => k []
  | c :: rest =>
    if p c then (greedyMany p rest k).orElse (fun _ => k (c :: rest))
    else k (c :: rest)

/-- Lazy `p*?`: shortest match first, growing on failure. -/
def lazyMany (p : Char → Bool) (cs : List Char)
    (k : List Char → Option (List String)) : Option (List String) :=
  (k cs).orElse fun _ =>
    match cs with
    | [] => none
    | c :: rest => if p c then lazyMany p rest k else none

/-- Backtracking matcher in continuation-passing style. Captures are
accumulated left to right (the embedded patterns have no nested groups,
so this agrees with Python's group numbering). -/
def reM : RE → List Char → List String →
    (List Char → List String → Option (List String)) → Option (List String)
  | .eps, cs, caps, k => k cs caps
  | .lit s, cs, caps, k =>
    match litTake s.toList cs with
    | some rest => k rest caps
    | none => none
  | .cls p, cs, caps, k =>
    match cs with
    | c :: rest => if p c then k rest caps else none
    | [] => none
  | .exactly n p, cs, caps, k =>
    match ccTake p n cs with
    | some rest => k rest caps
    | none => none
  | .rep p lo lz, cs, caps, k =>
    match ccTake p lo cs with
    | some rest =>
      if lz then lazyMany p rest (fun cs' => k cs' caps)
      else greedyMany p rest (fun cs' => k cs' caps)
    | none => none
  | .seq a b, cs, caps, k => reM a cs caps (fun cs' caps' => reM b cs' caps' k)
  | .alt a b, cs, caps, k =>
    (reM a cs caps k).orElse (fun _ => reM b cs caps k)
  | .grp a, cs, caps, k =>
    reM a cs caps
      (fun cs' caps' =>
        k cs' (caps' ++ [String.mk (cs.take (cs.length - cs'.length))]))
  | .eol, cs, caps, k => if cs = [] || cs = ['\n'] then k cs caps else none
  | .eos, cs, caps, k => if cs = [] then k cs caps else none

/-- Python `re.match`: anchored at the start, returning the captures. -/
def reMatch (e : RE) (s : String) : Option (List String) :=
  reM e s.toList [] (fun _ caps => some caps)

/-- Python `re.search` scanning: try each start position left to right. -/
def reSearchAux (e : RE) : List Char → Option (List String)
  | [] => reM e [] [] (fun _ caps => some caps)
  | c :: rest =>
    match reM e (c :: rest) [] (fun _ caps => some caps) with
    | some r => some r
    | none => reSearchAux e rest

/-- Python `re.search` on a string. -/
def reSearch (e : RE) (s : String) : Option (List String) :=
  reSearchAux e s.toList

/-- Right-fold a list of regex items into a sequence. -/
def reSeq (l : List RE) : RE := l.foldr .seq .eps

/-- Python `\s+`. -/
def wsPlus : RE := .rep isPySpace 1 false

/-- Python `\d+\.\d+` (the numeric fields of a feed row). -/
def reDec : RE := reSeq [.rep isDigitCh 1 false, .lit ".", .rep isDigitCh 1 false]

/-- Python `(-\.-|\d+\.\d+)` without the group: a magnitude token. -/
def reMag : RE := .alt (.lit "-.-") reDec

/-- The strict row pattern of `KoeriParser.parse_data` (parser.py line 94). -/
def patternOne : RE := reSeq [
  .grp (.exactly 4 isDigitCh), .lit ".", .grp (.exactly 2 isDigitCh), .lit ".",
  .grp (.exactly 2 isDigitCh), wsPlus,
  .grp (reSeq [.exactly 2 isDigitCh, .lit ":", .exactly 2 isDigitCh, .lit ":",
               .exactly 2 isDigitCh]), wsPlus,
  .grp reDec, wsPlus, .grp reDec, wsPlus, .grp reDec, wsPlus,
  .grp reMag, wsPlus, .grp reMag, wsPlus, .grp reMag, wsPlus,
  .grp (.rep anyNoNl 0 true), .rep isPySpace 2 false,
  .grp (.seq (.cls isNonSpace) (.rep anyNoNl 0 true)), .eol]

/-- The relaxed row pattern of `KoeriParser.parse_data` (parser.py line 99). -/
def patternTwo : RE := reSeq [
  .grp (.exactly 4 isDigitCh), .lit ".", .grp (.exactly 2 isDigitCh), .lit ".",
  .grp (.exactly 2 isDigitCh), wsPlus,
  .grp (reSeq [.exactly 2 isDigitCh, .lit ":", .exactly 2 isDigitCh, .lit ":",
               .exactly 2 isDigitCh]), wsPlus,
  .grp reDec, wsPlus, .grp reDec, wsPlus, .grp reDec, wsPlus,
  .grp reMag, wsPlus, .grp reMag, wsPlus, .grp reMag, wsPlus,
  .grp (.rep anyNoNl 0 true), .eol]

/-- Regex `<pre>(.*?)</pre>` with `re.DOTALL` (parser.py line 64). -/
def preContentRE : RE :=
  reSeq [.lit "<pre>", .grp (.rep anyCh 0 true), .lit "</pre>"]

/-- Dash character class for the separator lines. -/
def isDash (c : Char) : Bool := c = '-'

/-- Regex of parser.py line 71 locating the data table below the header. -/
def tableREOne : RE := reSeq [
  .lit "Tarih", wsPlus, .lit "Saat", wsPlus, .lit "Enlem",
  .rep anyCh 0 true, .lit "Çözüm Niteliği", .rep isPySpace 0 false, .lit "\n",
  .rep isDash 1 false, wsPlus, .rep isDash 1 false, wsPlus,
  .grp (.rep anyCh 0 true),
  .alt (reSeq [.lit "\n", .rep isPySpace 0 false, .lit "\n"]) .eos]

/-- Fallback regex of parser.py line 75. -/
def tableRETwo : RE := reSeq [
  .lit "Tarih", .rep anyCh 0 true,
  .rep isDash 1 false, wsPlus, .rep isDash 1 false, wsPlus,
  .grp (.rep anyCh 0 true),
  .alt (reSeq [.lit "\n", .rep isPySpace 0 false, .lit "\n"]) .eos]

/-- Python `str.strip()` (whitespace on both ends). -/
def pyStrip (s : String) : String :=
  String.mk (((s.toList.reverse.dropWhile isPySpace).reverse).dropWhile isPySpace)

/-- Python `str.rsplit(maxsplit=1)` with no separator: split off the last
whitespace-delimited word; the remainder keeps any inner whitespace. -/
def pyRsplitOne (s : String) : List String :=
  let r := s.toList.reverse.dropWhile isPySpace
  match r with
  | [] => []
  | _ =>
    let w := r.takeWhile isNonSpace
    let rest := (r.drop w.length).dropWhile isPySpace
    if rest = [] then [String.mk w.reverse]
    else [String.mk rest.reverse, String.mk w.reverse]

/-- Value of a digit-only string, as in Python `int` on the regex groups. -/
def digitsVal (cs : List Char) : Nat :=
  cs.foldl (fun acc c => acc * 10 + (c.toNat - '0'.toNat)) 0

/-- Split a character list at every occurrence of `sep` (the semantics of
Python `str.split(sep)` for a one-character separator). -/
def splitOnChar (sep : Char) : List Char → List (List Char)
  | [] => [[]]
  | c :: cs =>
    if c = sep then [] :: splitOnChar sep cs
    else
      match splitOnChar sep cs with
      | [] => [[c]]
      | w :: ws => (c :: w) :: ws

/-- Python `float` applied to a `\d+\.\d+` token, modelled exactly as a
rational (the feed carries short decimal literals). -/
def decStrToRat (s : String) : Rat :=
  match splitOnChar '.' s.toList with
  | [a, b] => (digitsVal a : Rat) + (digitsVal b : Rat) / ((10 : Rat) ^ b.length)
  | _ => 0

/-- The chained single-character `str.replace` calls of parser.py line 129
fixing the legacy-encoding artifacts. -/
def turkishFix (s : String) : String :=
  String.mk ((((s.toList.map (fun c => if c = 'Ý' then 'İ' else c)).map
    (fun c => if c = 'Ð' then 'Ğ' else c)).map
    (fun c => if c = 'Þ' then 'Ş' else c)))

/-- One parsed earthquake dictionary as produced by
`KoeriParser.parse_data`. -/
structure Earthquake where
  timestamp : String
  date : String
  time : String
  latitude : Rat
  longitude : Rat
  depth : Rat
  md : Option Rat
  ml : Option Rat
  mw : Option Rat
  magnitude : Option Rat
  location : String
  quality : String
deriving DecidableEq, Repr

/-- Python `max` on a nonempty list of floats, `None` when empty
(parser.py line 144). -/
def maxOfList : List Rat → Option Rat
  | [] => none
  | x :: xs => some (xs.foldl max x)

/-- Shared tail of both branches of the per-line parse: build the
earthquake dictionary from the captured fields (parser.py lines 121-159). -/
def mkQuake (y mo d t la lo de mdS mlS mwS locS qualS : String) : Earthquake :=
  let isoDate := y ++ "-" ++ mo ++ "-" ++ d
  let timestamp := isoDate ++ "T" ++ t ++ "Z"
  let location := turkishFix (pyStrip locS)
  let quality := turkishFix (pyStrip qualS)
  let mdV : Option Rat := if mdS = "-.-" then none else some (decStrToRat mdS)
  let mlV : Option Rat := if mlS = "-.-" then none else some (decStrToRat mlS)
  let mwV : Option Rat := if mwS = "-.-" then none else some (decStrToRat mwS)
  let mags := [mdV, mlV, mwV].filterMap id
  { timestamp := timestamp
    date := isoDate
    time := t
    latitude := decStrToRat la
    longitude := decStrToRat lo
    depth := decStrToRat de
    md := mdV
    ml := mlV
    mw := mwV
    magnitude := maxOfList mags
    location := pyStrip location
    quality := pyStrip quality }

/-- Parse one stripped data line: the strict pattern, then the relaxed
pattern with the right-split of location/quality, else skip. The body of
the source's `try` block is total on pattern-matched input, so the
`except ... continue` path coincides with the failure of both matches. -/
def parseLine (line : String) : Option Earthquake :=
  match reMatch patternOne line with
  | some [y, mo, d, t, la, lo, de, mdS, mlS, mwS, locS, qualS] =>
    some (mkQuake y mo d t la lo de mdS mlS mwS locS qualS)
  | some _ => none
  | none =>
    match reMatch patternTwo line with
    | some [y, mo, d, t, la, lo, de, mdS, mlS, mwS, lq] =>
      let parts := pyRsplitOne (pyStrip lq)
      match parts with
      | [a, b] =>
        if b = "İlksel" || b = "REVIZE" then
          some (mkQuake y mo d t la lo de mdS mlS mwS (pyStrip a) (pyStrip b))
        else
          some (mkQuake y mo d t la lo de mdS mlS mwS (pyStrip lq) "İlksel")
      | _ => some (mkQuake y mo d t la lo de mdS mlS mwS (pyStrip lq) "İlksel")
    | _ => none

/-- Whether `p` occurs as a prefix of `cs`. -/
def listStarts : List Char → List Char → Bool
  | [], _ => true
  | _ :: _, [] => false
  | p :: ps, c :: cs => p = c && listStarts ps cs

/-- Whether `p` occurs as a contiguous substring of `cs` (Python `in`). -/
def occursIn (p : List Char) : List Char → Bool
  | [] => listStarts p []
  | c :: cs => listStarts p (c :: cs) || occursIn p cs

/-- Python `pat in line` on strings. -/
def hasSubstr (pat s : String) : Bool := occursIn pat.toList s.toList

/-- The loop guard of parser.py line 86: skip blank, separator and
repeated header lines. -/
def lineSkipped (line : String) : Bool :=
  line = "" || hasSubstr "------" line || hasSubstr "Tarih" line

/-- One iteration of the per-line loop of `parse_data` (parser.py lines
84-165): strip, apply the skip guard, then attempt the two-pattern parse;
every failure mode of the loop body ends in `continue`, i.e. `none`. -/
def processLine (rawLine : String) : Option Earthquake :=
  let line := pyStrip rawLine
  if lineSkipped line then none else parseLine line

/-- The per-line loop of `parse_data` over the extracted table region. -/
def parseTableLines (tableData : String) : List Earthquake :=
  ((splitOnChar '\n' (pyStrip tableData).toList).map String.mk).filterMap processLine

/-- Table extraction of `parse_data` (parser.py lines 64-80): the `<pre>`
region, then the data table below the header (strict pattern, then the
fallback); `none` models the `ValueError` raises of lines 66 and 78. -/
def tableRegion (raw : String) : Option String :=
  match reSearch preContentRE raw with
  | some [pre] =>
    match reSearch tableREOne pre with
    | some [t] => some t
    | _ =>
      match reSearch tableRETwo pre with
      | some [t] => some t
      | _ => none
  | _ => none

/-- `KoeriParser.parse_data`: isolate the table region, then parse it
line by line. -/
def parse_data (raw : String) : Option (List Earthquake) :=
  (tableRegion raw).map parseTableLines

/-- Gregorian leap-year rule used by `datetime`. -/
def isLeapYear (y : Nat) : Bool := (y % 4 = 0 && y % 100 ≠ 0) || y % 400 = 0

/-- Days in a month of the proleptic Gregorian calendar. -/
def daysInMonth (y m : Nat) : Nat :=
  if m = 2 then (if isLeapYear y then 29 else 28)
  else if m = 4 || m = 6 || m = 9 || m = 11 then 30
  else 31

/-- Cumulative days before month `m` in a non-leap year. -/
def daysBeforeMonth (m : Nat) : Nat :=
  [0, 0, 31, 59, 90, 120, 151, 181, 212, 243, 273, 304, 334].getD m 0

/-- Ordinal day of the year. -/
def dayOfYear (y m d : Nat) : Nat :=
  daysBeforeMonth m + (if 2 < m && isLeapYear y then 1 else 0) + d

/-- Rata die day number (0001-01-01 has number 1 and is a Monday). -/
def rataDie (y m d : Nat) : Nat :=
  (y - 1) * 365 + (y - 1) / 4 - (y - 1) / 100 + (y - 1) / 400 + dayOfYear y m d

/-- ISO weekday, Monday = 1 .. Sunday = 7. -/
def weekdayISO (y m d : Nat) : Nat := (rataDie y m d - 1) % 7 + 1

/-- Number of ISO weeks in a year (52 or 53). -/
def isoWeeksInYear (y : Nat) : Nat :=
  let p := fun (n : Nat) => (n + n / 4 - n / 100 + n / 400) % 7
  if p y = 4 || p (y - 1) = 3 then 53 else 52

/-- ISO-8601 week number, as returned by `datetime.isocalendar()[1]`. -/
def isoWeek (y m d : Nat) : Nat :=
  let w := (dayOfYear y m d + 10 - weekdayISO y m d) / 7
  if w = 0 then isoWeeksInYear (y - 1)
  else if w = 53 && isoWeeksInYear y = 52 then 1
  else w

/-- Validation half of `datetime.fromisoformat` on the timestamps this
pipeline builds (`YYYY-MM-DDTHH:MM:SSZ`, with the code's
`replace('Z', '+00:00')` applied first): the calendar components when the
string is a real UTC instant of that shape, `none` when `fromisoformat`
would raise `ValueError`. -/
def parseTs (ts : String) : Option (Nat × Nat × Nat) :=
  match ts.toList with
  | [y1, y2, y3, y4, '-', m1, m2, '-', d1, d2, 'T',
     h1, h2, ':', n1, n2, ':', s1, s2, 'Z'] =>
    if [y1, y2, y3, y4, m1, m2, d1, d2, h1, h2, n1, n2, s1, s2].all isDigitCh then
      let y := digitsVal [y1, y2, y3, y4]
      let mo := digitsVal [m1, m2]
      let d := digitsVal [d1, d2]
      let h := digitsVal [h1, h2]
      let mi := digitsVal [n1, n2]
      let s := digitsVal [s1, s2]
      if 1 ≤ y && 1 ≤ mo && mo ≤ 12 && 1 ≤ d && d ≤ daysInMonth y mo
          && h ≤ 23 && mi ≤ 59 && s ≤ 59 then
        some (y, mo, d)
      else none
    else none
  | _ => none

/-- Calendar fields derived at insert time (database.py lines 433-437):
year, month, day respectively ISO week, or `none` when the timestamp does
not parse (the `ValueError` of `datetime.fromisoformat` propagates). -/
def tsCalendar (ts : String) : Option (Nat × Nat × Nat × Nat) :=
  match parseTs ts with
  | some (y, mo, d) => some (y, mo, d, isoWeek y mo d)
  | none => none

/-- One row of the `earthquakes` table
(schema of database.py lines 73-94). -/
structure EqRow where
  timestamp : String
  date : String
  time : String
  latitude : Rat
  longitude : Rat
  depth : Rat
  md : Option Rat
  ml : Option Rat
  mw : Option Rat
  magnitude : Option Rat
  location : String
  quality : String
  year : Nat
  month : Nat
  day : Nat
  week : Nat
deriving DecidableEq, Repr

/-- The INSERT of database.py lines 443-464: a parsed dictionary extended
with the derived calendar fields. -/
def quakeToRow (q : Earthquake) (y mo d wk : Nat) : EqRow :=
  { timestamp := q.timestamp
    date := q.date
    time := q.time
    latitude := q.latitude
    longitude := q.longitude
    depth := q.depth
    md := q.md
    ml := q.ml
    mw := q.mw
    magnitude := q.magnitude
    location := q.location
    quality := q.quality
    year := y
    month := mo
    day := d
    week := wk }

/-- The duplicate pre-check of database.py line 439:
`SELECT 1 FROM earthquakes WHERE timestamp = ?`. -/
def anyTsMatch (store : List EqRow) (ts : String) : Bool :=
  store.any fun r => r.timestamp = ts

/-- The storage-layer `UNIQUE(timestamp, latitude, longitude)` constraint
consulted by `INSERT OR IGNORE` (database.py lines 92 and 444). -/
def anyKeyMatch (store : List EqRow) (q : Earthquake) : Bool :=
  store.any fun r =>
    r.timestamp = q.timestamp && r.latitude = q.latitude && r.longitude = q.longitude

/-- The per-record loop of `EarthquakeDatabase.insert_earthquakes`
(database.py lines 430-474): derive calendar fields (a bad timestamp
raises `ValueError`, uncaught), skip when a stored row already has the
candidate's timestamp, otherwise `INSERT OR IGNORE` against the
natural-key constraint, counting actual insertions. -/
def insertLoop (store : List EqRow) (count : Nat) :
    List Earthquake → Except String (List EqRow × Nat)
  | [] => .ok (store, count)
  | q :: rest =>
    match tsCalendar q.timestamp with
    | none => .error "ValueError: invalid isoformat string"
    | some (y, mo, d, wk) =>
      if anyTsMatch store q.timestamp then insertLoop store count rest
      else if anyKeyMatch store q then insertLoop store count rest
      else insertLoop (store ++ [quakeToRow q y mo d wk]) (count + 1) rest

/-- `EarthquakeDatabase.insert_earthquakes` (database.py lines 412-483):
the committed table contents together with the number of rows inserted. -/
def insert_earthquakes (store : List EqRow) (quakes : List Earthquake) :
    Except String (List EqRow × Nat) :=
  if quakes.isEmpty then .ok (store, 0) else insertLoop store 0 quakes

set_option maxRecDepth 20000

deriving instance DecidableEq for Except

section RatEval

attribute [local semireducible] Rat.ofScientific Rat.mul Rat.inv Rat.add Rat.sub

/-- A natural-key hit implies a timestamp hit: the `UNIQUE` triple
contains the timestamp. -/
theorem anyKeyMatch_imp_anyTsMatch {s : List EqRow} {q : Earthquake}
    (h : anyKeyMatch s q = true) : anyTsMatch s q.timestamp = true := by
  rcases List.any_eq_true.mp h with ⟨r, hr, hprop⟩
  exact List.any_eq_true.mpr ⟨r, hr, by
    simp only [Bool.and_eq_true] at hprop
    exact hprop.1.1⟩

/-- Rows already stored survive a batch insert. -/
theorem insertLoop_mem_mono :
    ∀ (qs : List Earthquake) (s s' : List EqRow) (c n : Nat),
      insertLoop s c qs = .ok (s', n) → ∀ r ∈ s, r ∈ s'
  | [], s, s', c, n, h, r, hr => by
    simp only [insertLoop, Except.ok.injEq, Prod.mk.injEq] at h
    exact h.1 ▸ hr
  | q :: rest, s, s', c, n, h, r, hr => by
    unfold insertLoop at h
    cases htc : tsCalendar q.timestamp with
    | none => rw [htc] at h; exact absurd h (by simp)
    | some v =>
      obtain ⟨y, mo, d, wk⟩ := v
      simp only [htc] at h
      by_cases h1 : anyTsMatch s q.timestamp
      · rw [if_pos h1] at h
        exact insertLoop_mem_mono rest s s' c n h r hr
      · rw [if_neg h1] at h
        by_cases h2 : anyKeyMatch s q
        · rw [if_pos h2] at h
          exact insertLoop_mem_mono rest s s' c n h r hr
        · rw [if_neg h2] at h
          exact insertLoop_mem_mono rest (s ++ [quakeToRow q y mo d wk]) s' (c + 1) n h r
            (List.mem_append_left _ hr)

/-- After a successful batch insert, every processed record has a valid
timestamp and some committed row carries that exact timestamp. -/
theorem insertLoop_ts_present :
    ∀ (qs : List Earthquake) (s s' : List EqRow) (c n : Nat),
      insertLoop s c qs = .ok (s', n) →
      ∀ q ∈ qs, tsCalendar q.timestamp ≠ none ∧ anyTsMatch s' q.timestamp = true
  | [], _, _, _, _, _, q, hq => by simp at hq
  | q0 :: rest, s, s', c, n, h, q, hq => by
    unfold insertLoop at h
    cases htc : tsCalendar q0.timestamp with
    | none => rw [htc] at h; exact absurd h (by simp)
    | some v =>
      obtain ⟨y, mo, d, wk⟩ := v
      simp only [htc] at h
      cases List.mem_cons.mp hq with
      | inl heq =>
        subst heq
        refine ⟨by rw [htc]; exact fun hc => Option.noConfusion hc, ?_⟩
        by_cases h1 : anyTsMatch s q.timestamp
        · rw [if_pos h1] at h
          rcases List.any_eq_true.mp h1 with ⟨r, hr, hts⟩
          exact List.any_eq_true.mpr ⟨r, insertLoop_mem_mono rest s s' c n h r hr, hts⟩
        · rw [if_neg h1] at h
          by_cases h2 : anyKeyMatch s q
          · exact absurd (anyKeyMatch_imp_anyTsMatch h2) h1
          · rw [if_neg h2] at h
            refine List.any_eq_true.mpr
              ⟨quakeToRow q y mo d wk,
               insertLoop_mem_mono rest _ s' (c + 1) n h _ (List.mem_append_right _ (by simp)),
               by simp [quakeToRow]⟩
      | inr htail =>
        by_cases h1 : anyTsMatch s q0.timestamp
        · rw [if_pos h1] at h
          exact insertLoop_ts_present rest s s' c n h q htail
        · rw [if_neg h1] at h
          by_cases h2 : anyKeyMatch s q0
          · rw [if_pos h2] at h
            exact insertLoop_ts_present rest s s' c n h q htail
          · rw [if_neg h2] at h
            exact insertLoop_ts_present rest _ s' (c + 1) n h q htail

/-- If every record's timestamp already hits the store, the loop neither
inserts nor counts. -/
theorem insertLoop_all_dup :
    ∀ (qs : List Earthquake) (s : List EqRow) (c : Nat),
      (∀ q ∈ qs, tsCalendar q.timestamp ≠ none ∧ anyTsMatch s q.timestamp = true) →
      insertLoop s c qs = .ok (s, c)
  | [], s, c, _ => rfl
  | q :: rest, s, c, h => by
    obtain ⟨hne, hts⟩ := h q (by simp)
    obtain ⟨v, hv⟩ := Option.ne_none_iff_exists'.mp hne
    obtain ⟨y, mo, d, wk⟩ := v
    unfold insertLoop
    simp only [hv]
    rw [if_pos hts]
    exact insertLoop_all_dup rest s c (fun q' hq' => h q' (by simp [hq']))

/-- Claim C6 (confirmed). Re-ingesting the same raw feed text is
idempotent: once `parse_data` followed by `insert_earthquakes` has run on
an empty store, running the same parse result through
`insert_earthquakes` again inserts nothing, returns a count of 0 and
leaves the stored rows unchanged. -/
theorem reingest_idempotent (raw : String) (l : List Earthquake)
    (s : List EqRow) (n : Nat)
    (hp : parse_data raw = some l)
    (h1 : insert_earthquakes [] l = .ok (s, n)) :
    insert_earthquakes s l = .ok (s, 0) := by
  cases l with
  | nil => rfl
  | cons q rest =>
    simp only [insert_earthquakes, List.isEmpty_cons, Bool.false_eq_true, if_false] at h1 ⊢
    exact insertLoop_all_dup (q :: rest) s 0
      (insertLoop_ts_present (q :: rest) [] s 0 n h1)

/-- The well-formed feed row of the spec's end-to-end scenario. -/
def specRow : String :=
  "2025.01.10 09:05:56 36.9173 27.6803 8.9 -.- 1.4 -.- LOCATION_X Quality_Y"

/-- A raw feed document containing exactly the spec's well-formed row
inside the `<pre>` table markup the parser expects. -/
def rawC4 : String :=
  "<html><pre>Tarih      Saat      Enlem(N)  Boylam(E) Derinlik(km)  MD   ML   Mw    Yer Çözüm Niteliği\n---------- --------\n"
  ++ specRow ++ "</pre></html>"

/-- The record `parse_data` actually produces for `specRow`. -/
def specQuake : Earthquake :=
  { timestamp := "2025-01-10T09:05:56Z"
    date := "2025-01-10"
    time := "09:05:56"
    latitude := 369173 / 10000
    longitude := 276803 / 10000
    depth := 89 / 10
    md := none
    ml := some (14 / 10)
    mw := none
    magnitude := some (14 / 10)
    location := "LOCATION_X Quality_Y"
    quality := "İlksel" }

/-- The stored row for `specQuake` (2025-01-10 lies in ISO week 2). -/
def specStoredRow : EqRow := quakeToRow specQuake 2025 1 10 2

/-- Claim C4, counterexample. On the raw text containing the spec's row,
`parse_data` produces exactly one record, and its `location` is
"LOCATION_X Quality_Y", not "LOCATION_X": the strict row pattern requires
at least two spaces before the quality token, so the single-spaced row
falls to the relaxed pattern, whose tail split does not recognise
"Quality_Y" as a quality label and keeps the whole tail as the location. -/
theorem end_to_end_location_counterexample :
    parse_data rawC4 = some [specQuake] ∧ specQuake.location ≠ "LOCATION_X" := by
  constructor
  · decide
  · decide

/-- Claim C4 (corrected). The spec's end-to-end scenario holds except for
the location: the parse yields one record with
occurred_at "2025-01-10T09:05:56Z", primary magnitude 1.4, and location
"LOCATION_X Quality_Y" (quality defaulting to the provisional label);
inserting it into an empty store returns a count of 1, and inserting the
same parse result again returns a count of 0. -/
theorem end_to_end_scenario_amended :
    parse_data rawC4 = some [specQuake] ∧
    specQuake.timestamp = "2025-01-10T09:05:56Z" ∧
    specQuake.magnitude = some (1.4 : Rat) ∧
    specQuake.location = "LOCATION_X Quality_Y" ∧
    insert_earthquakes [] [specQuake] = .ok ([specStoredRow], 1) ∧
    insert_earthquakes [specStoredRow] [specQuake] = .ok ([specStoredRow], 0) := by
  refine ⟨by decide, rfl, by decide, rfl, by decide, by decide⟩

/-- Witness for `reingest_idempotent` at the spec's end-to-end input. -/
theorem reingest_idempotent_witness :
    insert_earthquakes [specStoredRow] [specQuake] = .ok ([specStoredRow], 0) :=
  reingest_idempotent rawC4 [specQuake] [specStoredRow] 1 (by decide) (by decide)

/-- A candidate differing from `specQuake` only in latitude. -/
def otherLatQuake : Earthquake := { specQuake with latitude := 37 }

/-- Claim C1, counterexample. A candidate that shares a stored record's
timestamp but has a different latitude is nonetheless skipped: the
duplicate pre-check of database.py line 439 consults the timestamp alone,
so the batch insert returns a count of 0 and stores nothing, where the
claim demands insertion. -/
theorem insert_dedup_triple_counterexample :
    otherLatQuake.timestamp = specStoredRow.timestamp ∧
    otherLatQuake.latitude ≠ specStoredRow.latitude ∧
    insert_earthquakes [specStoredRow] [otherLatQuake] = .ok ([specStoredRow], 0) := by
  refine ⟨rfl, by decide, by decide⟩

/-- Claim C1 (corrected). A candidate handed to the batch insert is
skipped as a duplicate if and only if an already-stored row matches its
timestamp alone; latitude and longitude are never consulted by the
pre-check (the storage-layer triple constraint is unreachable once the
timestamp check has passed). -/
theorem insert_dedup_timestamp_only (s : List EqRow) (c : Earthquake)
    (y mo d wk : Nat) (h : tsCalendar c.timestamp = some (y, mo, d, wk)) :
    insert_earthquakes s [c] =
      if anyTsMatch s c.timestamp then .ok (s, 0)
      else .ok (s ++ [quakeToRow c y mo d wk], 1) := by
  simp only [insert_earthquakes, List.isEmpty_cons, Bool.false_eq_true, if_false]
  unfold insertLoop
  simp only [h]
  by_cases h1 : anyTsMatch s c.timestamp
  · rw [if_pos h1, if_pos h1]
    rfl
  · have h2 : ¬ anyKeyMatch s c = true := fun hk => h1 (anyKeyMatch_imp_anyTsMatch hk)
    rw [if_neg h1, if_neg h1, if_neg h2]
    rfl

/-- Witness for `insert_dedup_timestamp_only` on a concrete store and
candidate. -/
theorem insert_dedup_timestamp_only_witness :
    insert_earthquakes [specStoredRow] [otherLatQuake] =
      if anyTsMatch [specStoredRow] otherLatQuake.timestamp
      then .ok ([specStoredRow], 0)
      else .ok ([specStoredRow] ++ [quakeToRow otherLatQuake 2025 1 10 2], 1) :=
  insert_dedup_timestamp_only [specStoredRow] otherLatQuake 2025 1 10 2 (by decide)

/-- A valid feed row for day `d` of January 2025. -/
def c9Row (d : String) : String :=
  "2025.01." ++ d ++ " 09:05:56 36.9173 27.6803 8.9 -.- 1.4 -.- LOC" ++ d ++ " X"

/-- A data line whose latitude field is not numeric: it fails both row
patterns. -/
def c9Bad : String :=
  "2025.01.10 09:05:56 abc 27.6803 8.9 -.- 1.4 -.- SOMEWHERE Quality_Y"

/-- A raw feed document with ten valid rows and one row with a
non-numeric latitude. -/
def rawC9 : String :=
  "<pre>Tarih  Saat  Enlem(N) Boylam(E) Derinlik(km) MD ML Mw Yer Çözüm Niteliği\n------ ------\n"
  ++ c9Row "01" ++ "\n" ++ c9Row "02" ++ "\n" ++ c9Row "03" ++ "\n"
  ++ c9Row "04" ++ "\n" ++ c9Row "05" ++ "\n" ++ c9Bad ++ "\n" ++ c9Row "06" ++ "\n"
  ++ c9Row "07" ++ "\n" ++ c9Row "08" ++ "\n" ++ c9Row "09" ++ "\n" ++ c9Row "11"
  ++ "</pre>"

/-- Claim C9 (confirmed). Malformed data lines are dropped individually
and can never abort the batch: the per-line loop is a total filterMap, a
line on which the loop body yields nothing leaves the parse of the
remaining lines unchanged, whenever the table region is found the parse
returns a result (never an exception), and concretely a batch of ten
valid lines plus one line with a non-numeric latitude parses to exactly
ten records. -/
theorem malformed_row_isolation :
    (∀ (pre suf : List String) (bad : String), processLine bad = none →
        (pre ++ bad :: suf).filterMap processLine = (pre ++ suf).filterMap processLine) ∧
    (∀ raw t, tableRegion raw = some t → parse_data raw = some (parseTableLines t)) ∧
    (parse_data rawC9).map List.length = some 10 := by
  refine ⟨?_, ?_, by decide⟩
  · intro pre suf bad hbad
    simp [List.filterMap_append, List.filterMap_cons, hbad]
  · intro raw t ht
    simp [parse_data, ht]

/-- Witness for `malformed_row_isolation` on a concrete malformed line. -/
theorem malformed_row_isolation_witness :
    ([c9Row "01"] ++ c9Bad :: [c9Row "02"]).filterMap processLine =
      ([c9Row "01"] ++ [c9Row "02"]).filterMap processLine :=
  malformed_row_isolation.1 [c9Row "01"] [c9Row "02"] c9Bad (by decide)

/-- One row of the `wa_messages` table (delivery receipts; schema of
database.py lines 141-151; `id` is the provider-assigned PRIMARY KEY). -/
structure WaMessage where
  id : String
  waUserId : Nat
  isRead : Bool
  message : Option String
  pollName : Option String
  updatedAt : String
  createdAt : String
deriving DecidableEq, Repr

/-- The `(group, recipient)` pair of a receipt. -/
def pairOf (m : WaMessage) : Option String × Nat := (m.pollName, m.waUserId)

/-- SQLite ordering of a nullable text column: NULL sorts before any
string, strings compare as text. -/
def optKey : Option String → WithBot String
  | none => ⊥
  | some s => (s : WithBot String)

/-- Sort key of the retention sweep's
`ORDER BY poll_name, wa_user_id, created_at DESC` (database.py line 221):
`poll_name` ascending with NULL first, `wa_user_id` ascending,
`created_at` descending. -/
def msgKey (m : WaMessage) : (WithBot String) ×ₗ (Nat ×ₗ Stringᵒᵈ) :=
  toLex (optKey m.pollName, toLex (m.waUserId, OrderDual.toDual m.createdAt))

/-- The row order produced by the sweep's SELECT. -/
def msgR (a b : WaMessage) : Prop := msgKey a ≤ msgKey b

instance : DecidableRel msgR := fun a b =>
  inferInstanceAs (Decidable (msgKey a ≤ msgKey b))

instance : IsTotal WaMessage msgR := ⟨fun a b => le_total (msgKey a) (msgKey b)⟩

instance : IsTrans WaMessage msgR := ⟨fun _ _ _ hab hbc => le_trans hab hbc⟩

/-- The Python loop of database.py lines 229-233: walk the sorted rows,
keeping the first row of each not-yet-seen `(poll_name, wa_user_id)`
combination. -/
def keepLoop : List WaMessage → List (Option String × Nat) → List String
  | [], _ => []
  | m :: rest, seen =>
    if pairOf m ∈ seen then keepLoop rest seen
    else m.id :: keepLoop rest (pairOf m :: seen)

/-- `EarthquakeDatabase.clear_old_wa_messages` (database.py lines
212-251): sort all receipts by group, recipient and creation time
descending, keep the first receipt per `(group, recipient)` pair, and
delete every receipt whose id is not kept (table order of the survivors
is unchanged). -/
def clear_old_wa_messages (msgs : List WaMessage) : List WaMessage :=
  let keep := keepLoop (List.insertionSort msgR msgs) []
  if keep.isEmpty then [] else msgs.filter (fun m => m.id ∈ keep)

/-- Two receipts of the same pair that the sweep's order relates have
descending creation timestamps. -/
theorem msgR_same_pair_createdAt {a b : WaMessage} (hp : pairOf a = pairOf b)
    (h : msgR a b) : b.createdAt ≤ a.createdAt := by
  have h1 : a.pollName = b.pollName := congrArg Prod.fst hp
  have h2 : a.waUserId = b.waUserId := congrArg Prod.snd hp
  unfold msgR msgKey at h
  rw [Prod.Lex.le_iff] at h
  cases h with
  | inl hlt => rw [h1] at hlt; exact absurd hlt (lt_irrefl _)
  | inr hr =>
    have h2' := hr.2
    rw [Prod.Lex.le_iff] at h2'
    cases h2' with
    | inl hlt => rw [h2] at hlt; exact absurd hlt (lt_irrefl _)
    | inr hr2 => exact hr2.2

/-- The first sorted row of a still-unseen pair is kept. -/
theorem keepLoop_of_find :
    ∀ (ss : List WaMessage) (seen : List (Option String × Nat))
      (pr : Option String × Nat) (m : WaMessage), pr ∉ seen →
      ss.find? (fun y => decide (pairOf y = pr)) = some m →
      m.id ∈ keepLoop ss seen
  | [], _, _, _, _, hf => by simp [List.find?] at hf
  | m0 :: rest, seen, pr, m, hseen, hf => by
    by_cases hp : pairOf m0 = pr
    · rw [List.find?_cons_of_pos _ (by simp [hp])] at hf
      cases hf
      unfold keepLoop
      rw [if_neg (hp ▸ hseen)]
      exact List.mem_cons_self _ _
    · rw [List.find?_cons_of_neg _ (by simp [hp])] at hf
      unfold keepLoop
      by_cases hs : pairOf m0 ∈ seen
      · rw [if_pos hs]
        exact keepLoop_of_find rest seen pr m hseen hf
      · rw [if_neg hs]
        refine List.mem_cons_of_mem _ (keepLoop_of_find rest _ pr m ?_ hf)
        intro hin
        rcases List.mem_cons.mp hin with heq | hin2
        · exact hp heq.symm
        · exact hseen hin2

/-- Every kept id is the id of the first sorted row of its pair. -/
theorem keepLoop_mem_inv :
    ∀ (ss : List WaMessage) (seen : List (Option String × Nat)) (x : String),
      x ∈ keepLoop ss seen →
      ∃ m, m.id = x ∧ pairOf m ∉ seen ∧
        ss.find? (fun y => decide (pairOf y = pairOf m)) = some m
  | [], _, _, hx => by simp [keepLoop] at hx
  | m0 :: rest, seen, x, hx => by
    unfold keepLoop at hx
    by_cases hs : pairOf m0 ∈ seen
    · rw [if_pos hs] at hx
      obtain ⟨m, hid, hnot, hfind⟩ := keepLoop_mem_inv rest seen x hx
      refine ⟨m, hid, hnot, ?_⟩
      rw [List.find?_cons_of_neg _ ?_, hfind]
      simp only [decide_eq_true_eq]
      intro heq
      exact hnot (heq ▸ hs)
    · rw [if_neg hs] at hx
      rcases List.mem_cons.mp hx with heq | hx2
      · exact ⟨m0, heq.symm, hs, by rw [List.find?_cons_of_pos _ (by simp)]⟩
      · obtain ⟨m, hid, hnot, hfind⟩ := keepLoop_mem_inv rest (pairOf m0 :: seen) x hx2
        have hne : pairOf m0 ≠ pairOf m := fun heq => hnot (heq ▸ List.mem_cons_self _ _)
        refine ⟨m, hid, fun hin => hnot (List.mem_cons_of_mem _ hin), ?_⟩
        rw [List.find?_cons_of_neg _ (by simp [hne]), hfind]

/-- In a sorted list, the first row satisfying a predicate is related to
every row satisfying it. -/
theorem find?_sorted_min :
    ∀ (ss : List WaMessage), List.Sorted msgR ss →
      ∀ (p : WaMessage → Bool) (m : WaMessage), ss.find? p = some m →
      ∀ b ∈ ss, p b = true → b = m ∨ msgR m b
  | [], _, _, _, hf, _, _, _ => by simp [List.find?] at hf
  | m0 :: rest, hsort, p, m, hf, b, hb, hpb => by
    obtain ⟨hrel, hsort'⟩ := List.sorted_cons.mp hsort
    by_cases hp0 : p m0 = true
    · rw [List.find?_cons_of_pos _ hp0] at hf
      cases hf
      rcases List.mem_cons.mp hb with heq | hb2
      · exact Or.inl heq
      · exact Or.inr (hrel b hb2)
    · rw [List.find?_cons_of_neg _ hp0] at hf
      rcases List.mem_cons.mp hb with heq | hb2
      · exact absurd (heq ▸ hpb) hp0
      · exact find?_sorted_min rest hsort' p m hf b hb2 hpb

/-- A list with no duplicates whose predicate holds exactly at one member
filters to that singleton. -/
theorem filter_eq_singleton_of_unique :
    ∀ (l : List α) (q : α → Bool) (a : α), l.Nodup → a ∈ l → q a = true →
      (∀ x ∈ l, q x = true → x = a) → l.filter q = [a]
  | [], _, a, _, ha, _, _ => by simp at ha
  | x :: rest, q, a, hnd, ha, hqa, huniq => by
    obtain ⟨hx, hnd'⟩ := List.nodup_cons.mp hnd
    rcases List.mem_cons.mp ha with heq | ha2
    · subst heq
      rw [List.filter_cons_of_pos hqa]
      have : rest.filter q = [] := by
        rw [List.filter_eq_nil_iff]
        intro b hb
        intro hqb
        exact hx ((huniq b (List.mem_cons_of_mem _ hb) hqb) ▸ hb)
      rw [this]
    · have hqx : ¬ q x = true := fun hqx =>
        (huniq x (List.mem_cons_self _ _) hqx) ▸ hx <| (huniq x (List.mem_cons_self _ _) hqx) ▸ ha2
      rw [List.filter_cons_of_neg (by simpa using hqx)]
      exact filter_eq_singleton_of_unique rest q a hnd' ha2 hqa
        (fun b hb hqb => huniq b (List.mem_cons_of_mem _ hb) hqb)

/-- Claim C7 (confirmed). After the retention sweep, every
`(group, recipient)` pair that had at least one receipt retains exactly
one receipt, it is one of the pair's original receipts with the greatest
creation timestamp, and only original receipts survive (receipts of other
pairs are governed by the same rule and nothing else changes). -/
theorem receipt_retention_sweep (msgs : List WaMessage)
    (hnd : (msgs.map (fun m => m.id)).Nodup)
    (pn : Option String) (uid : Nat)
    (hex : ∃ m ∈ msgs, m.pollName = pn ∧ m.waUserId = uid) :
    (∀ x ∈ clear_old_wa_messages msgs, x ∈ msgs) ∧
    ∃ m, m ∈ msgs ∧ m.pollName = pn ∧ m.waUserId = uid ∧
      (clear_old_wa_messages msgs).filter
        (fun x => decide (x.pollName = pn ∧ x.waUserId = uid)) = [m] ∧
      ∀ m' ∈ msgs, m'.pollName = pn → m'.waUserId = uid →
        m'.createdAt ≤ m.createdAt := by
  classical
  set ss := List.insertionSort msgR msgs with hss
  have hperm : List.Perm ss msgs := List.perm_insertionSort msgR msgs
  have hsort : List.Sorted msgR ss := List.sorted_insertionSort msgR msgs
  have hndmsgs : msgs.Nodup := List.Nodup.of_map _ hnd
  have hndss : (ss.map (fun m => m.id)).Nodup :=
    ((hperm.map (fun m => m.id)).nodup_iff).mpr hnd
  -- the first sorted row of the pair
  have hexss : ∃ m ∈ ss, (fun y => decide (pairOf y = (pn, uid))) m = true := by
    obtain ⟨m, hm, h1, h2⟩ := hex
    exact ⟨m, hperm.mem_iff.mpr hm, by simp [pairOf, h1, h2]⟩
  obtain ⟨m₀, hfind⟩ :=
    Option.isSome_iff_exists.mp (List.find?_isSome.mpr hexss)
  have hm₀ss : m₀ ∈ ss := List.mem_of_find?_eq_some hfind
  have hm₀msgs : m₀ ∈ msgs := hperm.mem_iff.mp hm₀ss
  have hm₀pair : pairOf m₀ = (pn, uid) := by
    have := List.find?_some hfind
    simpa using this
  -- the keep set and the surviving rows
  have hkeep : m₀.id ∈ keepLoop ss [] :=
    keepLoop_of_find ss [] (pn, uid) m₀ (by simp) (by
      convert hfind using 2)
  have hkeepne : ¬ (keepLoop ss []).isEmpty := by
    intro hemp
    rw [List.isEmpty_iff] at hemp
    rw [hemp] at hkeep
    simp at hkeep
  have hclear : clear_old_wa_messages msgs =
      msgs.filter (fun m => m.id ∈ keepLoop ss []) := by
    unfold clear_old_wa_messages
    rw [← hss, if_neg hkeepne]
  constructor
  · intro x hx
    rw [hclear] at hx
    exact List.mem_of_mem_filter hx
  refine ⟨m₀, hm₀msgs, congrArg Prod.fst hm₀pair, congrArg Prod.snd hm₀pair, ?_, ?_⟩
  · -- exactly one survivor of the pair
    rw [hclear, List.filter_filter]
    apply filter_eq_singleton_of_unique msgs _ m₀ hndmsgs hm₀msgs
    · simp only [Bool.and_eq_true, decide_eq_true_eq]
      refine ⟨⟨congrArg Prod.fst hm₀pair, congrArg Prod.snd hm₀pair⟩, ?_⟩
      simpa using hkeep
    · intro x hxmem hx
      simp only [Bool.and_eq_true, decide_eq_true_eq] at hx
      obtain ⟨⟨hxpn, hxuid⟩, hxkeep⟩ := hx
      have hxkeep' : x.id ∈ keepLoop ss [] := by simpa using hxkeep
      obtain ⟨m, hid, _, hfindm⟩ := keepLoop_mem_inv ss [] x.id hxkeep'
      have hmss : m ∈ ss := List.mem_of_find?_eq_some hfindm
      have hmeq : m = x :=
        List.inj_on_of_nodup_map hndss hmss (hperm.mem_iff.mpr hxmem) hid
      subst hmeq
      have hpairx : pairOf m = (pn, uid) := by
        simp [pairOf, hxpn, hxuid]
      rw [hpairx] at hfindm
      exact Option.some.inj (hfindm.symm.trans hfind)
  · -- the survivor has the greatest creation timestamp of its pair
    intro m' hm' hpn' huid'
    have hm'ss : m' ∈ ss := hperm.mem_iff.mpr hm'
    have hp' : (fun y => decide (pairOf y = (pn, uid))) m' = true := by
      simp [pairOf, hpn', huid']
    rcases find?_sorted_min ss hsort _ m₀ hfind m' hm'ss hp' with heq | hrel
    · rw [heq]
    · exact msgR_same_pair_createdAt (by
        rw [hm₀pair, pairOf, hpn', huid']) hrel

/-- An older receipt of the pair (group "g", recipient 1). -/
def waMsgA : WaMessage :=
  { id := "ida", waUserId := 1, isRead := false, message := none,
    pollName := some "g", updatedAt := "t", createdAt := "2025-01-01T00:00:00" }

/-- A newer receipt of the same pair. -/
def waMsgB : WaMessage :=
  { id := "idb", waUserId := 1, isRead := true, message := none,
    pollName := some "g", updatedAt := "t", createdAt := "2025-01-02T00:00:00" }

/-- Witness for `receipt_retention_sweep` on two receipts of one pair. -/
theorem receipt_retention_sweep_witness :
    (∀ x ∈ clear_old_wa_messages [waMsgA, waMsgB], x ∈ [waMsgA, waMsgB]) ∧
    ∃ m, m ∈ [waMsgA, waMsgB] ∧ m.pollName = some "g" ∧ m.waUserId = 1 ∧
      (clear_old_wa_messages [waMsgA, waMsgB]).filter
        (fun x => decide (x.pollName = some "g" ∧ x.waUserId = 1)) = [m] ∧
      ∀ m' ∈ [waMsgA, waMsgB], m'.pollName = some "g" → m'.waUserId = 1 →
        m'.createdAt ≤ m.createdAt :=
  receipt_retention_sweep [waMsgA, waMsgB] (by decide) (some "g") 1
    ⟨waMsgA, by decide⟩

/-- Split a compound endpoint string at pipes: Python
`webhook_url.split('|')`. -/
def pySplitOnPipe (s : String) : List String :=
  (splitOnChar '|' s.toList).map String.mk

/-- Outcome of one HTTP POST as the adapters interpret it: a status code
together with the Zulip-style nested result flag, or a raise inside the
HTTP library. -/
inductive HttpOutcome where
  | resp (status : Nat) (zulipSuccess : Bool)
  | raise
deriving DecidableEq, Repr

/-- A transmission actually handed to the transport (the URL posted). -/
structure Transmission where
  url : String
deriving DecidableEq, Repr

/-- `send_whatsapp_message` (webhooks.py lines 286-337): split the
compound endpoint `BASE_URL|ACCESS_TOKEN`; on any other token count
return False without posting; otherwise post to `base + "/messages"`,
succeeding exactly on status 200, with any raise caught as False. -/
def send_whatsapp_message (webhookUrl _messageBody : String)
    (post : String → HttpOutcome) : Bool × List Transmission :=
  match pySplitOnPipe webhookUrl with
  | [baseUrl, _accessToken] =>
    let tx : Transmission := ⟨baseUrl ++ "/messages"⟩
    match post tx.url with
    | .resp 200 _ => (true, [tx])
    | .resp _ _ => (false, [tx])
    | .raise => (false, [tx])
  | _ => (false, [])

/-- Interpretation of the Zulip response (webhooks.py lines 213-226):
status 200 with a nested success result is True, anything else
(including a raise) is False. -/
def zulipPostResult : HttpOutcome → Bool
  | .resp 200 true => true
  | .resp 200 false => false
  | .resp _ _ => false
  | .raise => false

/-- `send_zulip_message` (webhooks.py lines 185-226): with exactly three
pipe-separated tokens, post to the base URL with the credentials;
with any other token count the whole string is assumed to be a complete
URL and posted to directly. -/
def send_zulip_message (webhookUrl : String)
    (post : String → HttpOutcome) : Bool × List Transmission :=
  match pySplitOnPipe webhookUrl with
  | [baseUrl, _email, _apiKey] =>
    (zulipPostResult (post baseUrl), [⟨baseUrl⟩])
  | _ =>
    (zulipPostResult (post webhookUrl), [⟨webhookUrl⟩])

/-- Claim C5, counterexample. A team-chat (Zulip) endpoint with a single
token — not the expected three — does not fail closed: the adapter posts
to the raw string as if it were a complete URL, and with a successful
response it even returns True. -/
theorem zulip_malformed_endpoint_counterexample :
    send_zulip_message "https://zulip.example.com/api/v1/messages"
      (fun _ => .resp 200 true) =
      (true, [⟨"https://zulip.example.com/api/v1/messages"⟩]) := by
  decide

/-- Claim C5 (corrected). The templated-message (WhatsApp) adapter fails
closed on any token count other than two: it returns False and posts
nothing. The team-chat (Zulip) adapter, however, only uses the
credentialed path on exactly three tokens and otherwise posts to the
whole endpoint string as a complete URL — it transmits instead of
failing closed. -/
theorem malformed_endpoint_handling :
    (∀ (url body : String) (post : String → HttpOutcome),
        (pySplitOnPipe url).length ≠ 2 →
        send_whatsapp_message url body post = (false, [])) ∧
    (∀ (url : String) (post : String → HttpOutcome),
        (pySplitOnPipe url).length ≠ 3 →
        (send_zulip_message url post).2 = [⟨url⟩]) := by
  constructor
  · intro url body post hlen
    unfold send_whatsapp_message
    rcases hp : pySplitOnPipe url with _ | ⟨a, _ | ⟨b, rest⟩⟩
    · rfl
    · rfl
    · cases rest with
      | nil => exact absurd (by rw [hp]; rfl) hlen
      | cons c rest2 => rfl
  · intro url post hlen
    unfold send_zulip_message
    rcases hp : pySplitOnPipe url with _ | ⟨a, _ | ⟨b, _ | ⟨c, rest⟩⟩⟩
    · rfl
    · rfl
    · rfl
    · cases rest with
      | nil => exact absurd (by rw [hp]; rfl) hlen
      | cons d rest2 => rfl

/-- Witness for `malformed_endpoint_handling` on concrete malformed
endpoints. -/
theorem malformed_endpoint_handling_witness :
    send_whatsapp_message "no-pipes-here" "body" (fun _ => .resp 200 true) =
      (false, []) ∧
    (send_zulip_message "base|only-two" (fun _ => .resp 200 true)).2 =
      [⟨"base|only-two"⟩] :=
  ⟨malformed_endpoint_handling.1 "no-pipes-here" "body" _ (by decide),
   malformed_endpoint_handling.2 "base|only-two" _ (by decide)⟩

/-- One row of the `webhooks` table (registered channels; schema of
database.py lines 102-113). -/
structure Webhook where
  id : Nat
  name : String
  url : String
  type_ : String
  lastSentAt : Option String
deriving DecidableEq, Repr

/-- Outcome of one adapter call as seen by the dispatcher: a returned
boolean, or a raise caught by the dispatcher's own try/except. -/
inductive AdapterOutcome where
  | ret (b : Bool)
  | raise
deriving DecidableEq, Repr

/-- `EarthquakeDatabase.update_webhook_last_sent` (database.py lines
764-785): set `last_sent_at` of the rows with the given id. -/
def update_webhook_last_sent (wid : Nat) (now : String)
    (db : List Webhook) : List Webhook :=
  db.map fun w => if w.id = wid then { w with lastSentAt := some now } else w

/-- The four kind tags recognised by the if/elif chain of
`send_to_single_webhook` (main.py lines 182-189). -/
def knownType (t : String) : Bool :=
  t = "discord" || t = "zulip" || t = "whatsapp" || t = "generic"

/-- `send_to_single_webhook` (main.py lines 176-201). The adapter
selected by the kind tag is abstracted into the outcome oracle `ar`
(its concrete bodies are modelled separately); `success` starts False, a
recognised kind calls the adapter, an unrecognised kind calls nothing;
`last_sent_at` is updated only on a True return, and a raise is caught,
returning False with the store untouched. The third component records
the adapter invocations performed. -/
def send_to_single_webhook (ar : String → String → AdapterOutcome)
    (wtype wurl : String) (wid : Nat) (now : String) (db : List Webhook) :
    Bool × List Webhook × List (String × String) :=
  if knownType wtype then
    match ar wtype wurl with
    | .ret true => (true, update_webhook_last_sent wid now db, [(wtype, wurl)])
    | .ret false => (false, db, [(wtype, wurl)])
    | .raise => (false, db, [(wtype, wurl)])
  else (false, db, [])

/-- Whether the dispatcher's send for this channel succeeds. -/
def adapterSendOk (ar : String → String → AdapterOutcome) (w : Webhook) : Bool :=
  knownType w.type_ &&
    (match ar w.type_ w.url with | .ret true => true | _ => false)

/-- The adapter invocations one channel contributes. -/
def txOf (w : Webhook) : List (String × String) :=
  if knownType w.type_ then [(w.type_, w.url)] else []

/-- One step of the per-event fan-out loop of
`send_notifications_to_webhooks` (main.py lines 145-162): the channel's
send runs against the current store and its invocations are appended. -/
def fanoutStep (ar : String → String → AdapterOutcome) (now : String)
    (acc : List Webhook × List (String × String)) (wh : Webhook) :
    List Webhook × List (String × String) :=
  let r := send_to_single_webhook ar wh.type_ wh.url wh.id now acc.1
  (r.2.1, acc.2 ++ r.2.2)

/-- Fan-out of one earthquake record to every registered channel
(main.py lines 145-162; the gathered tasks each touch only their own
channel's row, rendered as the sequential fold). -/
def sendEventToWebhooks (ar : String → String → AdapterOutcome)
    (whs : List Webhook) (now : String) (db : List Webhook) :
    List Webhook × List (String × String) :=
  whs.foldl (fanoutStep ar now) (db, [])

/-- The row a channel's stored entry becomes after the fan-out. -/
def rowAfter (ar : String → String → AdapterOutcome) (now : String)
    (whs : List Webhook) (r : Webhook) : Webhook :=
  if whs.any (fun w => w.id == r.id && adapterSendOk ar w) then
    { r with lastSentAt := some now }
  else r

/-- Evaluation of one channel's send in terms of its outcome. -/
theorem send_to_single_eq (ar : String → String → AdapterOutcome)
    (w : Webhook) (now : String) (db : List Webhook) :
    send_to_single_webhook ar w.type_ w.url w.id now db =
      (adapterSendOk ar w,
       if adapterSendOk ar w then update_webhook_last_sent w.id now db else db,
       txOf w) := by
  unfold send_to_single_webhook adapterSendOk txOf
  by_cases hk : knownType w.type_
  · simp only [hk, if_true, Bool.true_and]
    cases har : ar w.type_ w.url with
    | ret b => cases b <;> simp
    | raise => simp
  · simp [hk]

/-- The fan-out fold, characterised: with distinct channel ids, the final
store updates exactly the rows of successful channels, and the
invocations performed are exactly one per recognised-kind channel. -/
theorem fanout_foldl_eq (ar : String → String → AdapterOutcome) (now : String) :
    ∀ (whs db : List Webhook) (acc : List (String × String)),
      (whs.map (fun w => w.id)).Nodup →
      whs.foldl (fanoutStep ar now) (db, acc) =
        (db.map (rowAfter ar now whs), acc ++ whs.flatMap txOf)
  | [], db, acc, _ => by
    have h : rowAfter ar now [] = fun r => r := funext fun r => by simp [rowAfter]
    simp only [List.foldl_nil, List.flatMap_nil, List.append_nil, Prod.mk.injEq, h,
      List.map_id']
  | w :: ws, db, acc, hnd => by
    obtain ⟨hw, hnd'⟩ :
        (∀ x ∈ ws, ¬ x.id = w.id) ∧ (ws.map (fun w => w.id)).Nodup := by
      simpa using hnd
    rw [List.foldl_cons]
    have hstep : fanoutStep ar now (db, acc) w =
        ((if adapterSendOk ar w then update_webhook_last_sent w.id now db else db),
         acc ++ txOf w) := by
      unfold fanoutStep
      rw [send_to_single_eq]
    rw [hstep, fanout_foldl_eq ar now ws _ _ hnd']
    refine congrArg₂ Prod.mk ?_ (by simp [List.flatMap_cons, List.append_assoc])
    by_cases hok : adapterSendOk ar w
    · rw [if_pos hok]
      unfold update_webhook_last_sent
      rw [List.map_map]
      apply List.map_congr_left
      intro r _
      simp only [Function.comp_apply]
      by_cases hid : r.id = w.id
      · rw [if_pos hid]
        unfold rowAfter
        have h1 : (ws.any fun w' => w'.id == r.id && adapterSendOk ar w') = false := by
          rw [List.any_eq_false]
          intro w' hw'
          simp only [Bool.and_eq_true, beq_iff_eq, not_and]
          intro heq
          exact fun _ => absurd (heq.trans hid) (hw w' hw')
        have h2 : ((w :: ws).any fun w' => w'.id == r.id && adapterSendOk ar w') = true := by
          simp [List.any_cons, hid.symm, hok]
        simp [h1, h2]
      · rw [if_neg hid]
        unfold rowAfter
        have : ((w :: ws).any fun w' => w'.id == r.id && adapterSendOk ar w') =
            (ws.any fun w' => w'.id == r.id && adapterSendOk ar w') := by
          simp only [List.any_cons, beq_iff_eq]
          have : ¬ w.id = r.id := fun heq => hid heq.symm
          simp [this]
        rw [this]
    · rw [if_neg hok]
      apply List.map_congr_left
      intro r _
      unfold rowAfter
      have : ((w :: ws).any fun w' => w'.id == r.id && adapterSendOk ar w') =
          (ws.any fun w' => w'.id == r.id && adapterSendOk ar w') := by
        simp [List.any_cons, hok]
      rw [this]

/-- With distinct ids and the store read as the channel list itself, each
channel's final row depends only on its own outcome. -/
theorem rowAfter_self (ar : String → String → AdapterOutcome) (now : String)
    (whs : List Webhook) (hnd : (whs.map (fun w => w.id)).Nodup)
    (r : Webhook) (hr : r ∈ whs) :
    rowAfter ar now whs r =
      (if adapterSendOk ar r then { r with lastSentAt := some now } else r) := by
  unfold rowAfter
  by_cases hok : adapterSendOk ar r
  · have : (whs.any fun w => w.id == r.id && adapterSendOk ar w) = true :=
      List.any_eq_true.mpr ⟨r, hr, by simp [hok]⟩
    rw [this, if_pos rfl, if_pos hok]
  · have : (whs.any fun w => w.id == r.id && adapterSendOk ar w) = false := by
      rw [List.any_eq_false]
      intro w hw
      simp only [Bool.and_eq_true, beq_iff_eq, not_and]
      intro heq hok'
      exact hok (List.inj_on_of_nodup_map hnd hw hr heq ▸ hok')
    rw [this]
    simp [hok]

/-- Claim C8 (confirmed). During the fan-out of one event over channels
with distinct ids, every channel whose adapter call returns success gets
`last_sent_at` set, every channel whose call returns failure or raises is
left exactly as it was, no other row is touched, and exactly one adapter
invocation is made per recognised channel regardless of any other
channel's failure. -/
theorem channel_fanout_frame (ar : String → String → AdapterOutcome)
    (now : String) (whs : List Webhook)
    (hnd : (whs.map (fun w => w.id)).Nodup) :
    sendEventToWebhooks ar whs now whs =
      (whs.map (fun w =>
        if adapterSendOk ar w then { w with lastSentAt := some now } else w),
       whs.flatMap txOf) := by
  unfold sendEventToWebhooks
  rw [fanout_foldl_eq ar now whs whs [] hnd]
  refine congrArg₂ Prod.mk ?_ (by simp)
  exact List.map_congr_left (fun r hr => rowAfter_self ar now whs hnd r hr)

/-- Three concrete channels; the middle one's adapter raises. -/
def whA : Webhook := ⟨1, "a", "ua", "discord", none⟩

/-- The channel whose adapter call raises. -/
def whB : Webhook := ⟨2, "b", "ub", "generic", none⟩

/-- A third healthy channel. -/
def whC : Webhook := ⟨3, "c", "uc", "zulip", none⟩

/-- Adapter oracle that raises for channel `whB` and succeeds elsewhere. -/
def arC8 : String → String → AdapterOutcome := fun _ u =>
  if u = "ub" then .raise else .ret true

/-- Witness for `channel_fanout_frame`: of three channels the raising one
keeps `last_sent_at` empty while the other two are updated. -/
theorem channel_fanout_frame_witness :
    sendEventToWebhooks arC8 [whA, whB, whC] "now" [whA, whB, whC] =
      ([whA, whB, whC].map (fun w =>
        if adapterSendOk arC8 w then { w with lastSentAt := some "now" } else w),
       [whA, whB, whC].flatMap txOf) :=
  channel_fanout_frame arC8 "now" [whA, whB, whC] (by decide)

/-- Claim C10 (confirmed). A registered channel whose kind tag is none of
the four recognised adapter kinds transmits nothing (no adapter
invocation), is treated as a failed send, and leaves the store — in
particular its own `last_delivered_at` — untouched; in a fan-out over
channels with distinct ids the other channels still proceed according to
their own outcomes while the unrecognised channel's row stays exactly as
it was. -/
theorem unknown_channel_kind (ar : String → String → AdapterOutcome)
    (wh : Webhook) (now : String) (hty : knownType wh.type_ = false) :
    (∀ db, send_to_single_webhook ar wh.type_ wh.url wh.id now db =
      (false, db, [])) ∧
    adapterSendOk ar wh = false ∧
    (∀ whs : List Webhook, (whs.map (fun w => w.id)).Nodup → wh ∈ whs →
      (sendEventToWebhooks ar whs now whs).1 =
        whs.map (fun w =>
          if adapterSendOk ar w then { w with lastSentAt := some now } else w) ∧
      (if adapterSendOk ar wh then { wh with lastSentAt := some now } else wh)
        = wh) := by
  refine ⟨?_, ?_, ?_⟩
  · intro db
    unfold send_to_single_webhook
    rw [hty]
    simp
  · unfold adapterSendOk
    rw [hty]
    simp
  · intro whs hnd hmem
    constructor
    · rw [channel_fanout_frame ar now whs hnd]
    · have : adapterSendOk ar wh = false := by
        unfold adapterSendOk
        rw [hty]
        simp
      rw [this]
      simp

/-- A channel with an unrecognised kind tag. -/
def whJunk : Webhook := ⟨4, "j", "uj", "slack", none⟩

/-- Witness for `unknown_channel_kind` on a concrete unrecognised kind in
a fan-out with two healthy channels. -/
theorem unknown_channel_kind_witness :
    (∀ db, send_to_single_webhook arC8 whJunk.type_ whJunk.url whJunk.id "now" db =
      (false, db, [])) ∧
    adapterSendOk arC8 whJunk = false ∧
    (∀ whs : List Webhook, (whs.map (fun w => w.id)).Nodup → whJunk ∈ whs →
      (sendEventToWebhooks arC8 whs "now" whs).1 =
        whs.map (fun w =>
          if adapterSendOk arC8 w then { w with lastSentAt := some "now" } else w) ∧
      (if adapterSendOk arC8 whJunk then { whJunk with lastSentAt := some "now" } else whJunk)
        = whJunk) :=
  unknown_channel_kind arC8 whJunk "now" (by decide)

/-- One row of the `polls` table (subscription groups; schema of
database.py lines 119-127). -/
structure Poll where
  name : String
  type_ : String
  minMagnitude : Rat
deriving DecidableEq, Repr

/-- One row of the `wa_users` table (recipients; schema of database.py
lines 130-139). -/
structure WaUser where
  id : Nat
  name : String
  phoneNumber : String
  pollName : Option String
  lastSentAt : Option String
deriving DecidableEq, Repr

/-- The subscription-side tables touched by the templated dispatch. -/
structure WaDb where
  polls : List Poll
  waUsers : List WaUser
  waMessages : List WaMessage
deriving DecidableEq, Repr

/-- A Python raise: an `Exception` subclass, or `SystemExit` as raised by
`sys.exit` — the latter is not caught by `except Exception`. -/
inductive PyErr where
  | exc (msg : String)
  | systemExit (code : Nat)
deriving DecidableEq, Repr

/-- Outcome of the provider POST for one templated send: a 200 with the
provider-assigned message id, another status, or a raise. -/
inductive WaSendResult where
  | ok (msgId : String)
  | httpFail (status : Nat)
  | raise
deriving DecidableEq, Repr

/-- Python falsiness of an optional environment string (`not WA_...`):
unset or empty. -/
def pyFalsy (o : Option String) : Bool := o = none || o = some ""

/-- `EarthquakeDatabase.get_wa_users` (database.py lines 1013-1035):
all WhatsApp recipients, ordered by name — no filter on `poll_name`. -/
def get_wa_users (db : WaDb) : List WaUser :=
  List.insertionSort (fun a b => a.name ≤ b.name) db.waUsers

/-- `EarthquakeDatabase.get_polls` (database.py lines 902-924): all
subscription groups, ordered by name. -/
def get_polls (db : WaDb) : List Poll :=
  List.insertionSort (fun a b => a.name ≤ b.name) db.polls

/-- `EarthquakeDatabase.update_wa_user_last_sent` (database.py lines
1037-1058). -/
def update_wa_user_last_sent (phone now : String) (db : WaDb) : WaDb :=
  { db with waUsers := db.waUsers.map fun u =>
      if u.phoneNumber = phone then { u with lastSentAt := some now } else u }

/-- `EarthquakeDatabase.create_wa_message` (database.py lines 323-351):
look the recipient up by phone number and insert one receipt; empty
arguments or an unknown number insert nothing. -/
def create_wa_message (db : WaDb) (phone msgId : String)
    (pollName : Option String) (now : String) : WaDb :=
  if phone = "" || msgId = "" then db
  else
    match db.waUsers.find? (fun u => u.phoneNumber == phone) with
    | none => db
    | some u =>
      { db with waMessages := db.waMessages ++
          [{ id := msgId, waUserId := u.id, isRead := false, message := none,
             pollName := pollName, updatedAt := now, createdAt := now }] }

/-- `send_earthquake_template_to_user` (polls.py lines 59-117): post the
template to one recipient; on a 200, update the recipient's
`last_sent_at` and record a receipt and return True; any failure or raise
is caught and returns False with nothing recorded. An empty batch makes
`earthquake_data["data"][0]` raise, also caught as False. -/
def send_earthquake_template_to_user (db : WaDb) (u : WaUser)
    (pollName : String) (eqData : List EqRow)
    (sendOut : WaUser → WaSendResult) (now : String) : Bool × WaDb :=
  match eqData with
  | [] => (false, db)
  | _ :: _ =>
    match sendOut u with
    | .ok msgId =>
      let db1 := update_wa_user_last_sent u.phoneNumber now db
      (true, create_wa_message db1 u.phoneNumber msgId (some pollName) now)
    | .httpFail _ => (false, db)
    | .raise => (false, db)

/-- `send_wa_template` (polls.py lines 12-57). Missing credentials, a
missing group, and every `Exception` raised in the body (the empty-batch
IndexError, the `TypeError` of comparing the threshold against a `None`
magnitude) end in `sys.exit(1)`, i.e. `SystemExit`. An event strictly
below the threshold returns normally having contacted nobody; otherwise
every recipient of `get_wa_users` — all registered recipients — gets one
templated send. The result carries the updated tables, the success count
and the list of phone numbers attempted. -/
def send_wa_template (nid tok : Option String) (db : WaDb)
    (pollName : String) (eqData : List EqRow)
    (sendOut : WaUser → WaSendResult) (now : String) :
    Except PyErr (WaDb × Nat × List String) :=
  if pyFalsy nid || pyFalsy tok then .error (.systemExit 1)
  else
    match db.polls.find? (fun p => p.name == pollName) with
    | none => .error (.systemExit 1)
    | some poll =>
      match eqData with
      | [] => .error (.systemExit 1)
      | e :: _ =>
        match e.magnitude with
        | none => .error (.systemExit 1)
        | some mag =>
          if poll.minMagnitude > mag then .ok (db, 0, [])
          else
            let users := get_wa_users db
            if users.isEmpty then .ok (db, 0, [])
            else
              let r := users.foldl (fun (acc : WaDb × Nat) u =>
                let s := send_earthquake_template_to_user acc.1 u poll.name
                  eqData sendOut now
                (s.2, if s.1 then acc.2 + 1 else acc.2)) (db, 0)
              .ok (r.1, r.2, users.map (fun u => u.phoneNumber))

/-- `EarthquakeDatabase.get_latest_earthquakes` (database.py lines
485-510): newest first, limited. -/
def get_latest_earthquakes (store : List EqRow) (n : Nat) : List EqRow :=
  (List.insertionSort (fun a b => b.timestamp ≤ a.timestamp) store).take n

/-- The channel fan-out over a batch of new events
(`send_notifications_to_webhooks`, main.py lines 106-174): the channel
registry is read once and each event is fanned out in turn against the
evolving store; the surrounding try/except catches every `Exception`, so
this step never raises. -/
def sendAllEvents (ar : String → String → AdapterOutcome)
    (whs : List Webhook) (now : String) (events : List EqRow) : List Webhook :=
  events.foldl (fun db _e => (sendEventToWebhooks ar whs now db).1) whs

/-- The per-group dispatch loop of `refresh_earthquake_data` (main.py
lines 77-85): each WhatsApp-typed group is dispatched in turn; a raise
aborts the remainder of the loop and propagates to the enclosing
handler. -/
def pollsLoop (nid tok : Option String) (eqData : List EqRow)
    (sendOut : String → WaUser → WaSendResult) (now : String) :
    WaDb → List Poll → Except PyErr WaDb
  | waDb, [] => .ok waDb
  | waDb, p :: rest =>
    if p.type_ = "whatsapp" then
      match send_wa_template nid tok waDb p.name eqData (sendOut p.name) now with
      | .ok (db', _, _) => pollsLoop nid tok eqData sendOut now db' rest
      | .error e => .error e
    else pollsLoop nid tok eqData sendOut now waDb rest

/-- The whole persistent state one ingestion cycle touches. -/
structure RefreshWorld where
  eqStore : List EqRow
  webhooks : List Webhook
  waDb : WaDb
deriving DecidableEq, Repr

/-- The status dictionary `refresh_earthquake_data` returns. -/
inductive CycleResult where
  | success (fetched inserted : Nat)
  | failure (msg : String)
deriving DecidableEq, Repr

/-- `refresh_earthquake_data` (main.py lines 55-104). The fetch/parse
outcome is `fetched` (`parser.get_earthquakes` raises only
`ConnectionError`, an `Exception`). The body's `except Exception`
handlers (lines 87 and 99) turn any `Exception` into a normal return;
only `SystemExit` from the subscription dispatch escapes. -/
def refresh_earthquake_data (nid tok : Option String) (w : RefreshWorld)
    (fetched : Except String (List Earthquake))
    (ar : String → String → AdapterOutcome)
    (sendOut : String → WaUser → WaSendResult) (now : String) :
    Except PyErr (RefreshWorld × CycleResult) :=
  match fetched with
  | .error m => .ok (w, .failure m)
  | .ok quakes =>
    match insert_earthquakes w.eqStore quakes with
    | .error m => .ok (w, .failure m)
    | .ok (store', n) =>
      if 0 < n then
        let latest := get_latest_earthquakes store' n
        let whs' := sendAllEvents ar w.webhooks now latest
        match pollsLoop nid tok latest sendOut now w.waDb (get_polls w.waDb) with
        | .ok db' =>
          .ok ({ eqStore := store', webhooks := whs', waDb := db' },
               .success quakes.length n)
        | .error (.exc _) =>
          .ok ({ eqStore := store', webhooks := whs', waDb := w.waDb },
               .success quakes.length n)
        | .error (.systemExit c) => .error (.systemExit c)
      else .ok ({ w with eqStore := store' }, .success quakes.length n)

/-- One iteration of `polling_service` (main.py lines 215-222): the
cycle's raise is caught by `except Exception` and the loop sleeps and
continues (`.ok`); anything else escapes and kills the loop task
(`.error`). -/
def pollingCycle (nid tok : Option String) (w : RefreshWorld)
    (fetched : Except String (List Earthquake))
    (ar : String → String → AdapterOutcome)
    (sendOut : String → WaUser → WaSendResult) (now : String) :
    Except PyErr Unit :=
  match refresh_earthquake_data nid tok w fetched ar sendOut now with
  | .ok _ => .ok ()
  | .error (.exc _) => .ok ()
  | .error (.systemExit c) => .error (.systemExit c)

/-- An event row at the spec's gating boundary, magnitude 4.0. -/
def c3Event : EqRow := { specStoredRow with magnitude := some 4 }

/-- A recipient assigned to group "beta", not to the dispatched group. -/
def c3User : WaUser :=
  { id := 1, name := "u", phoneNumber := "+1", pollName := some "beta",
    lastSentAt := none }

/-- Subscription tables with one group "alpha" (threshold 4.0) and one
recipient assigned to a different group. -/
def c3Db : WaDb :=
  { polls := [{ name := "alpha", type_ := "whatsapp", minMagnitude := 4 }],
    waUsers := [c3User], waMessages := [] }

/-- Claim C3, counterexample. Dispatching group "alpha" (threshold 4.0)
for an event of magnitude 4.0 makes a templated delivery attempt to the
recipient "+1" even though that recipient is assigned to group "beta":
`get_wa_users` returns every registered recipient, unfiltered by group,
so the "to no other recipient" part of the claim is false. -/
theorem subscription_scope_counterexample :
    c3User.pollName = some "beta" ∧
    (send_wa_template (some "nid") (some "tok") c3Db "alpha" [c3Event]
        (fun _ => .ok "mid") "t").map (fun r => r.2.2) = .ok ["+1"] := by
  refine ⟨rfl, by decide⟩

/-- Claim C3 (corrected). With credentials present, the group found, and
the most-recent event's magnitude present: a magnitude strictly below the
threshold contacts nobody, creates no receipt and leaves the tables
unchanged; a magnitude at or above the threshold makes exactly one
templated delivery attempt per registered recipient — all recipients
returned by `get_wa_users`, regardless of their group assignment — never
only those assigned to the group. -/
theorem threshold_gating_amended (nid tok : Option String) (db : WaDb)
    (pollName : String) (poll : Poll) (e : EqRow) (rest : List EqRow)
    (mag : Rat) (sendOut : WaUser → WaSendResult) (now : String)
    (hnid : pyFalsy nid = false) (htok : pyFalsy tok = false)
    (hfind : db.polls.find? (fun p => p.name == pollName) = some poll)
    (hmag : e.magnitude = some mag) :
    (poll.minMagnitude > mag →
      send_wa_template nid tok db pollName (e :: rest) sendOut now =
        .ok (db, 0, [])) ∧
    (¬ poll.minMagnitude > mag →
      ∃ db' n, send_wa_template nid tok db pollName (e :: rest) sendOut now =
        .ok (db', n, (get_wa_users db).map (fun u => u.phoneNumber))) := by
  constructor
  · intro hlt
    unfold send_wa_template
    simp only [hnid, htok, Bool.or_self, Bool.false_eq_true, if_false, hfind, hmag]
    rw [if_pos hlt]
  · intro hge
    unfold send_wa_template
    simp only [hnid, htok, Bool.or_self, Bool.false_eq_true, if_false, hfind, hmag]
    rw [if_neg hge]
    by_cases hemp : (get_wa_users db).isEmpty
    · rw [if_pos hemp]
      refine ⟨db, 0, ?_⟩
      rw [List.isEmpty_iff.mp hemp]
      rfl
    · rw [if_neg hemp]
      exact ⟨_, _, rfl⟩

/-- Witness for `threshold_gating_amended` at the concrete gating
boundary. -/
theorem threshold_gating_amended_witness :
    ((Poll.mk "alpha" "whatsapp" 4).minMagnitude > (4 : Rat) →
      send_wa_template (some "nid") (some "tok") c3Db "alpha" [c3Event]
        (fun _ => .ok "mid") "t" = .ok (c3Db, 0, [])) ∧
    (¬ (Poll.mk "alpha" "whatsapp" 4).minMagnitude > (4 : Rat) →
      ∃ db' n, send_wa_template (some "nid") (some "tok") c3Db "alpha" [c3Event]
        (fun _ => .ok "mid") "t" =
        .ok (db', n, (get_wa_users c3Db).map (fun u => u.phoneNumber))) :=
  threshold_gating_amended (some "nid") (some "tok") c3Db "alpha"
    (Poll.mk "alpha" "whatsapp" 4) c3Event [] 4 (fun _ => .ok "mid") "t"
    (by decide) (by decide) (by decide) (by decide)

/-- Every raise escaping the subscription dispatcher is `sys.exit(1)`. -/
theorem send_wa_template_err (nid tok : Option String) (db : WaDb)
    (pollName : String) (eqData : List EqRow)
    (sendOut : WaUser → WaSendResult) (now : String) (e : PyErr)
    (h : send_wa_template nid tok db pollName eqData sendOut now = .error e) :
    e = .systemExit 1 := by
  unfold send_wa_template at h
  by_cases h0 : (pyFalsy nid || pyFalsy tok) = true
  · rw [if_pos h0] at h
    exact (Except.error.inj h).symm
  · rw [if_neg h0] at h
    cases hf : db.polls.find? (fun p => p.name == pollName) with
    | none =>
      simp only [hf] at h
      exact (Except.error.inj h).symm
    | some poll =>
      simp only [hf] at h
      cases eqData with
      | nil => exact (Except.error.inj h).symm
      | cons e0 rest =>
        cases hm : e0.magnitude with
        | none =>
          simp only [hm] at h
          exact (Except.error.inj h).symm
        | some mag =>
          simp only [hm] at h
          split at h
          · exact Except.noConfusion h
          · split at h
            · exact Except.noConfusion h
            · exact Except.noConfusion h

/-- Every raise escaping the per-group dispatch loop is `sys.exit(1)`. -/
theorem pollsLoop_err (nid tok : Option String) (eqData : List EqRow)
    (sendOut : String → WaUser → WaSendResult) (now : String) :
    ∀ (polls : List Poll) (waDb : WaDb) (e : PyErr),
      pollsLoop nid tok eqData sendOut now waDb polls = .error e →
      e = .systemExit 1
  | [], _, _, h => Except.noConfusion h
  | p :: rest, waDb, e, h => by
    unfold pollsLoop at h
    by_cases hty : p.type_ = "whatsapp"
    · rw [if_pos hty] at h
      cases hs : send_wa_template nid tok waDb p.name eqData (sendOut p.name) now with
      | ok v =>
        obtain ⟨db', n, l⟩ := v
        simp only [hs] at h
        exact pollsLoop_err nid tok eqData sendOut now rest db' e h
      | error e' =>
        simp only [hs] at h
        rw [← Except.error.inj h]
        exact send_wa_template_err nid tok waDb p.name eqData (sendOut p.name) now e' hs
    · rw [if_neg hty] at h
      exact pollsLoop_err nid tok eqData sendOut now rest waDb e h

/-- Every raise escaping one whole refresh cycle is `sys.exit(1)`. -/
theorem refresh_err (nid tok : Option String) (w : RefreshWorld)
    (fetched : Except String (List Earthquake))
    (ar : String → String → AdapterOutcome)
    (sendOut : String → WaUser → WaSendResult) (now : String) (e : PyErr)
    (h : refresh_earthquake_data nid tok w fetched ar sendOut now = .error e) :
    e = .systemExit 1 := by
  unfold refresh_earthquake_data at h
  cases fetched with
  | error m => exact Except.noConfusion h
  | ok quakes =>
    cases hins : insert_earthquakes w.eqStore quakes with
    | error m =>
      simp only [hins] at h
      exact Except.noConfusion h
    | ok v =>
      obtain ⟨store', n⟩ := v
      simp only [hins] at h
      by_cases hn : 0 < n
      · rw [if_pos hn] at h
        cases hp : pollsLoop nid tok (get_latest_earthquakes store' n) sendOut now
            w.waDb (get_polls w.waDb) with
        | ok db' =>
          simp only [hp] at h
          exact Except.noConfusion h
        | error e' =>
          cases e' with
          | exc m =>
            simp only [hp] at h
            exact Except.noConfusion h
          | systemExit c =>
            simp only [hp] at h
            have h1 := pollsLoop_err nid tok (get_latest_earthquakes store' n)
              sendOut now (get_polls w.waDb) w.waDb (.systemExit c) hp
            rw [← Except.error.inj h]
            exact h1
      · rw [if_neg hn] at h
        exact Except.noConfusion h

/-- The ingestion world of the C2 counterexample: empty store, one
WhatsApp-typed subscription group, no channels, no recipients. -/
def c2World : RefreshWorld :=
  { eqStore := [], webhooks := [],
    waDb := { polls := [{ name := "g", type_ := "whatsapp", minMagnitude := 1 }],
              waUsers := [], waMessages := [] } }

/-- Claim C2, counterexample. A cycle that fetches one new record while
the WhatsApp credentials are unset does not return normally to the
scheduler: the subscription dispatcher calls `sys.exit(1)`, and the
resulting `SystemExit` passes through both `except Exception` handlers
and terminates the polling loop. -/
theorem scheduler_systemexit_counterexample :
    pollingCycle none (some "tok") c2World (.ok [specQuake])
      (fun _ _ => .ret true) (fun _ _ => .ok "mid") "t" =
      .error (.systemExit 1) := by
  decide

/-- Claim C2 (corrected). Exception-class errors anywhere in a cycle are
caught inside the cycle and the scheduler proceeds; but the cycle is not
total: the subscription dispatcher converts its own failures (missing
credentials, missing group, empty batch, absent magnitude, any Exception
in its body) into `sys.exit(1)`, and that `SystemExit` is the one raise
that escapes both `except Exception` handlers and terminates the
perpetual loop. Every cycle therefore either returns normally or dies
with `SystemExit 1`. -/
theorem scheduler_exception_containment (nid tok : Option String)
    (w : RefreshWorld) (fetched : Except String (List Earthquake))
    (ar : String → String → AdapterOutcome)
    (sendOut : String → WaUser → WaSendResult) (now : String) :
    pollingCycle nid tok w fetched ar sendOut now = .ok () ∨
    pollingCycle nid tok w fetched ar sendOut now = .error (.systemExit 1) := by
  unfold pollingCycle
  cases hr : refresh_earthquake_data nid tok w fetched ar sendOut now with
  | ok v => exact Or.inl rfl
  | error e =>
    cases e with
    | exc m => exact Or.inl rfl
    | systemExit c =>
      have h1 := refresh_err nid tok w fetched ar sendOut now (.systemExit c) hr
      injection h1 with hc
      subst hc
      exact Or.inr rfl

end RatEval

end MonoEq
